import Mathlib

/-!
Verification of the cas-stack content-addressable storage service.

The definitions below are a shallow embedding of the TypeScript sources:
  packages/cas-stack/server.ts            (in-memory storage, local server)
  packages/cas-stack/src/router.ts        (HTTP router)
  packages/cas-stack/src/db/tokens.ts     (DynamoDB token store)
  packages/cas-stack/src/db/ownership.ts  (DynamoDB ownership store)
  packages/cas-stack/src/middleware/auth.ts (authentication middleware)

JavaScript Map objects and DynamoDB tables are modelled as association
lists; asynchronous methods are modelled as pure state-passing functions;
machine integers are Nat.  Byte sequences are lists of Nat.
-/

-- ===========================================================================
-- Association lists, modelling JS Map and DynamoDB key-value tables
-- ===========================================================================

/-- Split a character list at every space, modelling the JavaScript call
split with a single-space separator. -/
def splitSpaceAux : List Char → List Char → List (List Char)
  | [], acc => [acc.reverse]
  | c :: rest, acc =>
      if c = ' ' then acc.reverse :: splitSpaceAux rest [] else splitSpaceAux rest (c :: acc)

/-- JavaScript String.prototype.split with a space separator. -/
def splitSpace (s : String) : List String :=
  (splitSpaceAux s.data []).map String.mk

/-- ASCII lowering of one character, the case relevant to scheme names. -/
def charLower (c : Char) : Char :=
  if 65 ≤ c.toNat ∧ c.toNat ≤ 90 then Char.ofNat (c.toNat + 32) else c

/-- JavaScript String.prototype.toLowerCase restricted to ASCII. -/
def strToLower (s : String) : String :=
  String.mk (s.data.map charLower)

/-- Replace the first occurrence of a pattern in a character list by
nothing, modelling the JavaScript call replace with an empty replacement. -/
def replaceFirstAux (pat : List Char) : List Char → List Char
  | [] => []
  | c :: rest =>
      if pat.isPrefixOf (c :: rest) then (c :: rest).drop pat.length
      else c :: replaceFirstAux pat rest

/-- Lookup in an association list; models Map.get and the DynamoDB GetCommand. -/
def lookupA {κ α : Type} [DecidableEq κ] : List (κ × α) → κ → Option α
  | [], _ => none
  | (k, v) :: rest, key => if k = key then some v else lookupA rest key

/-- Insert or replace in an association list; models Map.set and the DynamoDB
PutCommand, both of which overwrite an existing row with the same key. -/
def insertA {κ α : Type} [DecidableEq κ] : List (κ × α) → κ → α → List (κ × α)
  | [], k, v => [(k, v)]
  | (k', v') :: rest, k, v =>
      if k' = k then (k, v) :: rest else (k', v') :: insertA rest k v

-- ===========================================================================
-- SHA-256 (FIPS 180-4), the hash behind MemoryCasStorage.computeHash
-- ===========================================================================

/-- Truncate to a 32-bit word. -/
def w32 (x : Nat) : Nat := x % 4294967296

/-- Rotate a 32-bit word right by n bits. -/
def rotr (n x : Nat) : Nat := w32 ((x >>> n) ||| (x <<< (32 - n)))

/-- Choice function of SHA-256. -/
def shaCh (x y z : Nat) : Nat := (x &&& y) ^^^ ((x ^^^ 4294967295) &&& z)

/-- Majority function of SHA-256. -/
def shaMaj (x y z : Nat) : Nat := (x &&& y) ^^^ (x &&& z) ^^^ (y &&& z)

/-- Big sigma-0 of SHA-256. -/
def bsig0 (x : Nat) : Nat := rotr 2 x ^^^ rotr 13 x ^^^ rotr 22 x

/-- Big sigma-1 of SHA-256. -/
def bsig1 (x : Nat) : Nat := rotr 6 x ^^^ rotr 11 x ^^^ rotr 25 x

/-- Small sigma-0 of SHA-256. -/
def ssig0 (x : Nat) : Nat := rotr 7 x ^^^ rotr 18 x ^^^ (x >>> 3)

/-- Small sigma-1 of SHA-256. -/
def ssig1 (x : Nat) : Nat := rotr 17 x ^^^ rotr 19 x ^^^ (x >>> 10)

/-- The 64 SHA-256 round constants, written in decimal. -/
def shaK : List Nat :=
  [1116352408, 1899447441, 3049323471, 3921009573, 961987163, 1508970993,
   2453635748, 2870763221, 3624381080, 310598401, 607225278, 1426881987,
   1925078388, 2162078206, 2614888103, 3248222580, 3835390401, 4022224774,
   264347078, 604807628, 770255983, 1249150122, 1555081692, 1996064986,
   2554220882, 2821834349, 2952996808, 3210313671, 3336571891, 3584528711,
   113926993, 338241895, 666307205, 773529912, 1294757372, 1396182291,
   1695183700, 1986661051, 2177026350, 2456956037, 2730485921, 2820302411,
   3259730800, 3345764771, 3516065817, 3600352804, 4094571909, 275423344,
   430227734, 506948616, 659060556, 883997877, 958139571, 1322822218,
   1537002063, 1747873779, 1955562222, 2024104815, 2227730452, 2361852424,
   2428436474, 2756734187, 3204031479, 3329325298]

/-- The SHA-256 initial hash state, written in decimal. -/
def shaH0 : List Nat :=
  [1779033703, 3144134277, 1013904242, 2773480762,
   1359893119, 2600822924, 528734635, 1541459225]

/-- Append the SHA-256 padding to a byte message. -/
def padMessage (msg : List Nat) : List Nat :=
  let len := msg.length
  let bitLen := 8 * len
  let z := (119 - len % 64) % 64
  msg ++ [128] ++ List.replicate z 0 ++
    (List.range 8).map (fun i => (bitLen >>> (56 - 8 * i)) % 256)

/-- Pack bytes into big-endian 32-bit words. -/
def bytesToWords : List Nat → List Nat
  | b0 :: b1 :: b2 :: b3 :: rest =>
      (((b0 % 256) <<< 24) + ((b1 % 256) <<< 16) + ((b2 % 256) <<< 8) + b3 % 256)
        :: bytesToWords rest
  | _ => []

/-- Split a word list into 16-word blocks, accumulating the current block
in reverse. -/
def wordChunksAux : List Nat → List Nat → List (List Nat)
  | [], acc => if acc.isEmpty then [] else [acc.reverse]
  | w :: ws, acc =>
      if acc.length = 15 then (acc.reverse ++ [w]) :: wordChunksAux ws []
      else wordChunksAux ws (w :: acc)

/-- Split a word list into 16-word blocks. -/
def wordChunks (l : List Nat) : List (List Nat) :=
  wordChunksAux l []

/-- Extend a 16-word block to the 64-word message schedule. -/
def extendSchedule : Nat → List Nat → List Nat
  | 0, acc => acc
  | n + 1, acc =>
      extendSchedule n (acc ++
        [w32 (ssig1 (acc.getD (acc.length - 2) 0) + acc.getD (acc.length - 7) 0 +
              ssig0 (acc.getD (acc.length - 15) 0) + acc.getD (acc.length - 16) 0)])

/-- Run the 64 SHA-256 rounds over a state of eight words. -/
def shaRounds : List (Nat × Nat) → List Nat → List Nat
  | [], st => st
  | (k, w) :: rest, [a, b, c, d, e, f, g, h] =>
      let t1 := w32 (h + bsig1 e + shaCh e f g + k + w)
      let t2 := w32 (bsig0 a + shaMaj a b c)
      shaRounds rest [w32 (t1 + t2), a, b, c, w32 (d + t1), e, f, g]
  | _, st => st

/-- Compress one message block into the hash state. -/
def shaCompress (h : List Nat) (chunk : List Nat) : List Nat :=
  let ws := extendSchedule 48 chunk
  let st := shaRounds (shaK.zip ws) h
  (h.zip st).map (fun p => w32 (p.1 + p.2))

/-- SHA-256 digest of a byte message, as eight 32-bit words. -/
def sha256Words (msg : List Nat) : List Nat :=
  (wordChunks (bytesToWords (padMessage msg))).foldl shaCompress shaH0

/-- Lowercase hex character for a digit below 16. -/
def hexChar (d : Nat) : Char :=
  if d < 10 then Char.ofNat (48 + d) else Char.ofNat (87 + d)

/-- Eight-digit lowercase hex rendering of a 32-bit word. -/
def hexWord (x : Nat) : List Char :=
  (List.range 8).map (fun i => hexChar ((x >>> (28 - 4 * i)) % 16))

/-- MemoryCasStorage.computeHash from server.ts: the sha256 hex digest of the
content prefixed with the string sha256: . -/
def computeHash (content : List Nat) : String :=
  "sha256:" ++ String.mk ((sha256Words content).map hexWord).flatten

-- ===========================================================================
-- Data model (src/types.ts shapes as used by server.ts, router.ts, tokens.ts)
-- ===========================================================================

/-- A stored blob: raw bytes plus content type (MemoryCasStorage entries). -/
structure Blob where
  content : List Nat
  contentType : String
deriving DecidableEq

/-- Successful result of a MemoryCasStorage write. -/
structure PutResult where
  key : String
  size : Nat
  isNew : Bool
deriving DecidableEq

/-- The hash-mismatch error of putWithKey, carrying both digests. -/
structure HashMismatchE where
  expected : String
  actual : String
deriving DecidableEq

/-- CasOwnership row: the claim of one scope on one content key. -/
structure CasOwnership where
  scope : String
  key : String
  createdAt : Nat
  createdBy : String
  contentType : String
  size : Nat
deriving DecidableEq

/-- CasDagNode row: structural metadata of one DAG node. -/
structure CasDagNode where
  key : String
  children : List String
  contentType : String
  size : Nat
  createdAt : Nat
deriving DecidableEq

/-- TokenPermissions of an agent token. -/
structure TokenPermissions where
  read : Bool
  write : Bool
  issueTicket : Bool
deriving DecidableEq

/-- UserToken row. -/
structure UserToken where
  pk : String
  userId : String
  refreshToken : String
  createdAt : Nat
  expiresAt : Nat
deriving DecidableEq

/-- AgentToken row.  The permissions attribute is an Option because the
DynamoDB row written by TokensDb.createAgentToken in db/tokens.ts carries no
permissions attribute at all, while MemoryTokensDb in server.ts stores one;
none models the absent attribute. -/
structure AgentToken where
  pk : String
  userId : String
  name : String
  description : Option String
  permissions : Option TokenPermissions
  createdAt : Nat
  expiresAt : Nat
deriving DecidableEq

/-- Ticket row in the shape created by MemoryTokensDb.createTicket in
server.ts and consumed by AuthMiddleware.buildAuthContext: scope, issuerId,
ticketType (the string read or write), an optional key restriction, and
timestamps.  The written attribute is part of the persisted ticket schema
(db/tokens.ts markTicketWritten and the technical-principles document); the
router and middleware never read it and server.ts never sets it, which the
theorems below make explicit. -/
structure Ticket where
  pk : String
  scope : String
  issuerId : String
  ticketType : String
  key : Option String
  written : Option String
  createdAt : Nat
  expiresAt : Nat
deriving DecidableEq

/-- Writable configuration of the new ticket structure in db/tokens.ts:
either the bare value true or an object with optional quota and accepted
content types. -/
inductive WritableConfig
  | simple : WritableConfig
  | limits (quota : Option Nat) (accept : Option (List String)) : WritableConfig
deriving DecidableEq

/-- Ticket row in the new structure created by TokensDb.createTicket in
db/tokens.ts: shard, issuerId, a scope that is a single key or a key list,
an optional writable configuration, the write-once written attribute, and
the server chunk threshold copied into the ticket config. -/
structure TicketV2 where
  pk : String
  shard : String
  issuerId : String
  scope : Sum String (List String)
  writable : Option WritableConfig
  written : Option String
  createdAt : Nat
  expiresAt : Nat
  chunkThreshold : Nat
deriving DecidableEq

/-- Server-side configuration ceilings (CasServerConfig). -/
structure CasServerConfig where
  maxTicketTtl : Nat
  maxAgentTokenTtl : Nat
  chunkThreshold : Nat
deriving DecidableEq

/-- Token: the credential union stored in the tokens table. -/
inductive Token
  | user (t : UserToken)
  | agent (t : AgentToken)
  | ticket (t : Ticket)
deriving DecidableEq

/-- Partition key of a stored token. -/
def Token.pk : Token → String
  | .user t => t.pk
  | .agent t => t.pk
  | .ticket t => t.pk

/-- Expiry timestamp of a stored token. -/
def Token.expiresAt : Token → Nat
  | .user t => t.expiresAt
  | .agent t => t.expiresAt
  | .ticket t => t.expiresAt

/-- AuthContext built by the middleware: the resolved credential plus its
scope and rights.  The token field keeps the credential itself, as in
middleware/auth.ts. -/
structure AuthContext where
  token : Token
  userId : String
  scope : String
  canRead : Bool
  canWrite : Bool
  canIssueTicket : Bool
  allowedKey : Option String
deriving DecidableEq

/-- Responses produced along the PUT node route of router.ts, one
constructor per errorResponse or jsonResponse call site. -/
inductive PutNodeResp
  | unauthorized
  | scopeDenied
  | writeDenied
  | emptyBody
  | hashMismatch (expected actual : String)
  | ok (key : String) (size : Nat) (contentType : String)
deriving DecidableEq

/-- HTTP status code of each PUT node response, as in router.ts. -/
def PutNodeResp.status : PutNodeResp → Nat
  | .unauthorized => 401
  | .scopeDenied => 403
  | .writeDenied => 403
  | .emptyBody => 400
  | .hashMismatch _ _ => 400
  | .ok _ _ _ => 200

/-- Error message of each PUT node response, as in router.ts. -/
def PutNodeResp.errorMessage : PutNodeResp → Option String
  | .unauthorized => some "Unauthorized"
  | .scopeDenied => some "Access denied to this scope"
  | .writeDenied => some "Write access denied"
  | .emptyBody => some "Empty body"
  | .hashMismatch _ _ => some "Hash mismatch"
  | .ok _ _ _ => none

/-- Backend state visible to the PUT node route: the tokens table, the
ownership table keyed by scope and key pairs, and the content store. -/
structure RouterState where
  tokens : List (String × Token)
  ownership : List ((String × String) × CasOwnership)
  blobs : List (String × Blob)
deriving DecidableEq

-- ===========================================================================
-- MemoryCasStorage (server.ts lines 225-267)
-- ===========================================================================

namespace MemoryCasStorage

/-- The content store: blob rows keyed by content hash. -/
abbrev CasState := List (String × Blob)

/-- MemoryCasStorage.get: lookup by content key. -/
def get (s : CasState) (casKey : String) : Option Blob :=
  lookupA s casKey

/-- MemoryCasStorage.put: hash the content, store it only when the key is
new, and report key, size and novelty. -/
def put (s : CasState) (content : List Nat) (contentType : String) :
    PutResult × CasState :=
  let key := computeHash content
  let isNew := (lookupA s key).isNone
  let s' := if isNew then insertA s key { content := content, contentType := contentType } else s
  ({ key := key, size := content.length, isNew := isNew }, s')

/-- MemoryCasStorage.putWithKey: recompute the hash of the content and
reject the write with a hash-mismatch error carrying both digests when it
differs from the caller-asserted key; otherwise defer to put. -/
def putWithKey (s : CasState) (expectedKey : String) (content : List Nat)
    (contentType : String) : (PutResult ⊕ HashMismatchE) × CasState :=
  let actualKey := computeHash content
  if actualKey ≠ expectedKey then
    (Sum.inr { expected := expectedKey, actual := actualKey }, s)
  else
    let r := put s content contentType
    (Sum.inl r.1, r.2)

end MemoryCasStorage

-- ===========================================================================
-- OwnershipDb (src/db/ownership.ts)
-- ===========================================================================

namespace OwnershipDb

/-- The ownership table, keyed by scope and content key pairs. -/
abbrev OwnTable := List ((String × String) × CasOwnership)

/-- OwnershipDb.hasOwnership: a GetCommand on the scope and key pair. -/
def hasOwnership (t : OwnTable) (scope casKey : String) : Bool :=
  (lookupA t (scope, casKey)).isSome

/-- OwnershipDb.getOwnership. -/
def getOwnership (t : OwnTable) (scope casKey : String) : Option CasOwnership :=
  lookupA t (scope, casKey)

/-- OwnershipDb.addOwnership: a PutCommand writing a fresh record stamped
with the current time; an existing row under the same scope and key pair is
overwritten. -/
def addOwnership (t : OwnTable) (scope casKey createdBy contentType : String)
    (size now : Nat) : OwnTable :=
  insertA t (scope, casKey)
    { scope := scope, key := casKey, createdAt := now, createdBy := createdBy,
      contentType := contentType, size := size }

end OwnershipDb

-- ===========================================================================
-- MemoryDagDb (server.ts lines 183-223)
-- ===========================================================================

namespace MemoryDagDb

/-- The DAG index: node rows keyed by content key. -/
abbrev NodeTable := List (String × CasDagNode)

/-- Children list of the node stored under a key, or empty when absent;
this is the node query inside the collectDagKeys loop. -/
def childrenOf (nodes : NodeTable) (key : String) : List String :=
  match lookupA nodes key with
  | some n => n.children
  | none => []

/-- All children appearing anywhere in the node table. -/
def allChildren (nodes : NodeTable) : List String :=
  (nodes.map (fun p => p.2.children)).flatten

/-- Key universe relevant to a traversal state: the pending queue plus
every child recorded in the table.  Only used as a termination measure. -/
def univF (nodes : NodeTable) (queue : List String) : Finset String :=
  queue.toFinset ∪ (allChildren nodes).toFinset

/-- The body of the collectDagKeys while loop from server.ts: pop the queue,
skip visited keys, otherwise mark the key visited and push its children that
are not yet visited. -/
def collectAux (nodes : NodeTable) : List String → List String → List String
  | [], visited => visited
  | key :: rest, visited =>
      if key ∈ visited then
        collectAux nodes rest visited
      else
        collectAux nodes
          (rest ++ (childrenOf nodes key).filter (fun c => decide (¬ c ∈ visited ++ [key])))
          (visited ++ [key])
termination_by queue visited => ((univF nodes queue \ visited.toFinset).card, queue.length)
decreasing_by
  · have hsub : univF nodes rest \ visited.toFinset ⊆
        univF nodes (key :: rest) \ visited.toFinset := by
      apply Finset.sdiff_subset_sdiff _ le_rfl
      apply Finset.union_subset_union _ le_rfl
      intro x hx
      simp only [List.toFinset_cons, Finset.mem_insert]
      exact Or.inr hx
    rcases lt_or_eq_of_le (Finset.card_le_card hsub) with h | h
    · exact Prod.Lex.left _ _ h
    · rw [h]
      exact Prod.Lex.right _ (Nat.lt_succ_self _)
  · rename_i hkey
    apply Prod.Lex.left
    have hchild : ∀ (l : NodeTable) (k : String) (c : String),
        c ∈ childrenOf l k → c ∈ allChildren l := by
      intro l
      induction l with
      | nil => intro k c hc; simp [childrenOf, lookupA] at hc
      | cons p rest ih =>
        intro k c hc
        simp only [childrenOf, lookupA] at hc
        by_cases hp : p.1 = k
        · rw [if_pos hp] at hc
          simp only [allChildren, List.map_cons, List.flatten_cons, List.mem_append]
          exact Or.inl hc
        · rw [if_neg hp] at hc
          simp only [allChildren, List.map_cons, List.flatten_cons, List.mem_append]
          exact Or.inr (ih k c hc)
    apply Finset.card_lt_card
    rw [Finset.ssubset_iff_of_subset]
    · refine ⟨key, ?_, ?_⟩
      · simp only [Finset.mem_sdiff, univF, Finset.mem_union, List.mem_toFinset]
        exact ⟨Or.inl (List.mem_cons_self _ _), hkey⟩
      · simp only [Finset.mem_sdiff, List.toFinset_append, Finset.mem_union,
          List.mem_toFinset, List.mem_cons, not_and, not_not]
        intro _
        simp
    · intro x hx
      simp only [Finset.mem_sdiff, univF, Finset.mem_union, List.mem_toFinset,
        List.mem_append, List.toFinset_append] at hx ⊢
      obtain ⟨hin, hout⟩ := hx
      have hxv : ¬ x ∈ visited := by
        intro hv
        exact hout (Or.inl (by simp [hv]))
      refine ⟨?_, hxv⟩
      rcases hin with h | h
      · rcases h with h | h
        · exact Or.inl (List.mem_cons_of_mem _ h)
        · have := List.mem_filter.mp h
          exact Or.inr (hchild nodes key x this.1)
      · exact Or.inr h

/-- MemoryDagDb.collectDagKeys: breadth-first traversal over children with a
visited set, starting from the root key. -/
def collectDagKeys (nodes : NodeTable) (rootKey : String) : List String :=
  collectAux nodes [rootKey] []

/-- One children edge of the stored DAG: the source key has a node row and
the target is among its children. -/
def DagEdge (nodes : NodeTable) (a b : String) : Prop :=
  ∃ n, lookupA nodes a = some n ∧ b ∈ n.children

/-- Reachability from a key by following children edges. -/
def DagReach (nodes : NodeTable) (a b : String) : Prop :=
  Relation.ReflTransGen (DagEdge nodes) a b

end MemoryDagDb

-- ===========================================================================
-- TokensDb (src/db/tokens.ts) and MemoryTokensDb (server.ts)
-- ===========================================================================

namespace TokensDb

/-- The tokens table of the middleware and router path. -/
abbrev TokenTable := List (String × Token)

/-- The tokens table of the new-structure ticket operations in db/tokens.ts. -/
abbrev TicketTable := List (String × TicketV2)

/-- TokensDb.extractTokenId: replace the first occurrence of the token
number-sign marker in a pk by nothing. -/
def extractTokenId (pk : String) : String :=
  String.mk (replaceFirstAux "token#".data pk.data)

/-- TokensDb.getToken: fetch a token row by id and treat an expired row as
absent.  The source guards the comparison with the truthiness of expiresAt
(result.Item.expiresAt is tested before the comparison), so a zero expiry
is never treated as expired. -/
def getToken (tokens : TokenTable) (tokenId : String) (now : Nat) : Option Token :=
  match lookupA tokens ("token#" ++ tokenId) with
  | none => none
  | some t => if t.expiresAt ≠ 0 ∧ t.expiresAt < now then none else some t

/-- TokensDb.createTicket in db/tokens.ts, new ticket structure: default one
hour, requested duration capped at the single configured maxTicketTtl
ceiling; the ticket carries no read or write type of its own, only an
optional writable configuration.  The generated random id and the clock are
passed in as parameters. -/
def createTicket (shard issuerId : String) (scope : Sum String (List String))
    (serverConfig : CasServerConfig) (writable : Option WritableConfig)
    (expiresIn : Option Nat) (now : Nat) (ticketId : String) : TicketV2 :=
  let requestedExpiresIn := expiresIn.getD 3600
  let e := min requestedExpiresIn serverConfig.maxTicketTtl
  { pk := "token#" ++ ticketId, shard := shard, issuerId := issuerId,
    scope := scope, writable := writable, written := none,
    createdAt := now, expiresAt := now + e * 1000,
    chunkThreshold := serverConfig.chunkThreshold }

/-- Blank row created when the DynamoDB UpdateCommand of markTicketWritten
upserts a missing item: the stored item holds only the partition key and the
written attribute, so every other field is modelled by an empty default. -/
def blankTicketRow (pk : String) (rootKey : String) : TicketV2 :=
  { pk := pk, shard := "", issuerId := "", scope := Sum.inl "",
    writable := none, written := some rootKey, createdAt := 0, expiresAt := 0,
    chunkThreshold := 0 }

/-- TokensDb.markTicketWritten: a DynamoDB conditional update setting the
written attribute, guarded by the condition that the attribute does not yet
exist.  The update applies and the call returns true exactly when written is
unset; a ConditionalCheckFailedException is caught and reported as false
with the table unchanged.  A missing row is upserted per DynamoDB
UpdateCommand semantics. -/
def markTicketWritten (table : TicketTable) (ticketId rootKey : String) :
    Bool × TicketTable :=
  match lookupA table ("token#" ++ ticketId) with
  | some t =>
      match t.written with
      | none => (true, insertA table ("token#" ++ ticketId) { t with written := some rootKey })
      | some _ => (false, table)
  | none =>
      (true, insertA table ("token#" ++ ticketId) (blankTicketRow ("token#" ++ ticketId) rootKey))

/-- TokensDb.revertTicketWrite: unconditionally remove the written
attribute. -/
def revertTicketWrite (table : TicketTable) (ticketId : String) : TicketTable :=
  match lookupA table ("token#" ++ ticketId) with
  | some t => insertA table ("token#" ++ ticketId) { t with written := none }
  | none => table

/-- TokensDb.createAgentToken in db/tokens.ts: default thirty days capped at
maxAgentTokenTtl.  The function accepts no permissions argument and the row
it writes carries no permissions attribute, modelled as none. -/
def createAgentToken (userId name : String) (serverConfig : CasServerConfig)
    (description : Option String) (expiresIn : Option Nat) (now : Nat)
    (tokenId : String) : AgentToken :=
  let requestedExpiresIn := expiresIn.getD (30 * 24 * 60 * 60)
  let e := min requestedExpiresIn serverConfig.maxAgentTokenTtl
  { pk := "token#" ++ tokenId, userId := userId, name := name,
    description := description, permissions := none,
    createdAt := now, expiresAt := now + e * 1000 }

end TokensDb

namespace MemoryTokensDb

/-- MemoryTokensDb.createTicket in server.ts: the default expiry is one hour
for read tickets and five minutes for write tickets, and an explicitly
requested expiresIn is used as given, with no cap of any kind. -/
def createTicket (scope issuerId : String) (ticketType : String)
    (key : Option String) (expiresIn : Option Nat) (now : Nat)
    (ticketId : String) : Ticket :=
  let defaultExpiry := if ticketType = "read" then 3600 else 300
  { pk := "token#" ++ ticketId, scope := scope, issuerId := issuerId,
    ticketType := ticketType, key := key, written := none,
    createdAt := now, expiresAt := now + (expiresIn.getD defaultExpiry) * 1000 }

/-- MemoryTokensDb.createAgentToken in server.ts: stores the requested
permissions with the token. -/
def createAgentToken (userId name : String) (permissions : TokenPermissions)
    (expiresIn : Option Nat) (now : Nat) (tokenId : String) : AgentToken :=
  { pk := "token#" ++ tokenId, userId := userId, name := name,
    description := none, permissions := some permissions,
    createdAt := now, expiresAt := now + (expiresIn.getD (30 * 24 * 3600)) * 1000 }

end MemoryTokensDb

-- ===========================================================================
-- AuthMiddleware (src/middleware/auth.ts)
-- ===========================================================================

namespace AuthMiddleware

/-- AuthMiddleware.buildAuthContext: map each credential variant to its
authorization context.  A user gets full rights in the scope usr underscore
userId; an agent gets the stored permissions in the same scope; a ticket
gets read or write per its ticketType, never issues tickets, and carries its
key restriction.  The agent branch of the source reads
token.permissions.read without a guard, so an agent row whose permissions
attribute is absent makes the middleware throw a TypeError; that crash is
modelled by none. -/
def buildAuthContext (token : Token) : Option AuthContext :=
  match token with
  | .user t =>
      some { token := token, userId := t.userId, scope := "usr_" ++ t.userId,
             canRead := true, canWrite := true, canIssueTicket := true,
             allowedKey := none }
  | .agent t =>
      match t.permissions with
      | some p =>
          some { token := token, userId := t.userId, scope := "usr_" ++ t.userId,
                 canRead := p.read, canWrite := p.write,
                 canIssueTicket := p.issueTicket, allowedKey := none }
      | none => none
  | .ticket t =>
      some { token := token, userId := "", scope := t.scope,
             canRead := t.ticketType = "read", canWrite := t.ticketType = "write",
             canIssueTicket := false, allowedKey := t.key }

/-- Truthiness of a JavaScript string held in an optional field: undefined
and the empty string are falsy. -/
def jsTruthy : Option String → Bool
  | none => false
  | some s => s ≠ ""

/-- AuthMiddleware.authenticate: split the Authorization header on a space,
require a bearer or ticket scheme and a nonempty token id, fetch the token,
and build its context. -/
def authenticate (tokens : TokensDb.TokenTable) (now : Nat)
    (authHeader : Option String) : Option AuthContext :=
  match authHeader with
  | none => none
  | some h =>
      match splitSpace h with
      | scheme :: tokenId :: _ =>
          if scheme = "" ∨ tokenId = "" then none
          else
            let normalizedScheme := strToLower scheme
            if normalizedScheme ≠ "bearer" ∧ normalizedScheme ≠ "ticket" then none
            else
              match TokensDb.getToken tokens tokenId now with
              | none => none
              | some t => buildAuthContext t
      | _ => none

/-- AuthMiddleware.checkScopeAccess: resolve the at-me alias to the caller
scope and then require exact equality. -/
def checkScopeAccess (auth : AuthContext) (requestedScope : String) : Bool :=
  let effectiveScope := if requestedScope = "@me" then auth.scope else requestedScope
  auth.scope = effectiveScope

/-- AuthMiddleware.checkReadAccess: require canRead, then reject when the
allowedKey restriction is truthy and differs from the requested key.  The
truthiness test means an empty-string allowedKey imposes no restriction. -/
def checkReadAccess (auth : AuthContext) (key : String) : Bool :=
  if !auth.canRead then false
  else if jsTruthy auth.allowedKey && (auth.allowedKey.getD "") ≠ key then false
  else true

/-- AuthMiddleware.checkWriteAccess. -/
def checkWriteAccess (auth : AuthContext) : Bool :=
  auth.canWrite

/-- AuthMiddleware.resolveScope: the at-me alias resolves to the caller
scope. -/
def resolveScope (auth : AuthContext) (requestedScope : String) : String :=
  if requestedScope = "@me" then auth.scope else requestedScope

end AuthMiddleware

-- ===========================================================================
-- Router (src/router.ts), the PUT node route
-- ===========================================================================

namespace Router

/-- Router.handlePutNode: deny without write access, reject an empty body,
store the content with hash validation, and record ownership stamped with
the current time.  The storage calls go to the CasStorage class, whose file
is not in the source tree; its put contract is the section on the content
store in the specification and coincides with MemoryCasStorage in server.ts,
which is the model used here.  The handler makes no token-store call at all:
the tokens component of the state is returned untouched. -/
def handlePutNode (st : RouterState) (auth : AuthContext) (scope key : String)
    (content : List Nat) (contentType : String) (now : Nat) :
    PutNodeResp × RouterState :=
  if !AuthMiddleware.checkWriteAccess auth then (.writeDenied, st)
  else if content.length = 0 then (.emptyBody, st)
  else
    match MemoryCasStorage.putWithKey st.blobs key content contentType with
    | (Sum.inr e, _) => (.hashMismatch e.expected e.actual, st)
    | (Sum.inl r, blobs') =>
        let tokenId := TokensDb.extractTokenId auth.token.pk
        let ownership' := OwnershipDb.addOwnership st.ownership scope r.key tokenId
          contentType r.size now
        (.ok r.key r.size contentType,
         { st with blobs := blobs', ownership := ownership' })

/-- The PUT node route of Router.handleCas: authenticate, check scope
access, resolve the scope alias and run the handler. -/
def casPutNode (st : RouterState) (now : Nat) (authHeader : Option String)
    (requestedScope key : String) (content : List Nat) (contentType : String) :
    PutNodeResp × RouterState :=
  match AuthMiddleware.authenticate st.tokens now authHeader with
  | none => (.unauthorized, st)
  | some auth =>
      if !AuthMiddleware.checkScopeAccess auth requestedScope then (.scopeDenied, st)
      else
        let scope := AuthMiddleware.resolveScope auth requestedScope
        handlePutNode st auth scope key content contentType now

end Router

-- ===========================================================================
-- General lemmas about the association-list model
-- ===========================================================================

theorem lookupA_insertA_self {κ α : Type} [DecidableEq κ]
    (t : List (κ × α)) (k : κ) (v : α) : lookupA (insertA t k v) k = some v := by
  induction t with
  | nil => simp [insertA, lookupA]
  | cons p rest ih =>
      obtain ⟨k', v'⟩ := p
      by_cases h : k' = k
      · simp [insertA, h, lookupA]
      · simp [insertA, h, lookupA, ih]

theorem lookupA_insertA_ne {κ α : Type} [DecidableEq κ]
    (t : List (κ × α)) (k k' : κ) (v : α) (h : k' ≠ k) :
    lookupA (insertA t k v) k' = lookupA t k' := by
  induction t with
  | nil =>
      have h2 : ¬ k = k' := fun he => h he.symm
      simp [insertA, lookupA, h2]
  | cons p rest ih =>
      obtain ⟨k₀, v₀⟩ := p
      by_cases h0 : k₀ = k
      · subst h0
        have h2 : ¬ k₀ = k' := fun he => h he.symm
        simp [insertA, lookupA, h2]
      · by_cases h1 : k₀ = k'
        · simp [insertA, h0, lookupA, h1, h]
        · simp [insertA, h0, lookupA, h1, ih]

-- ===========================================================================
-- Claim theorems
-- ===========================================================================

/-- C2 (counterexample): the claim that putWithKey of computeKey b with
bytes b and content type ct followed by get returns b with content type ct
fails when the key is already stored: a first put of byte 104 with content
type text slash plain, then putWithKey of the same byte with content type
application slash json succeeds as a dedup no-op, and get still returns the
original content type, not the one just passed. -/
theorem putWithKey_dedup_keeps_first_contentType :
    (MemoryCasStorage.putWithKey (MemoryCasStorage.put [] [104] "text/plain").2
        (computeHash [104]) [104] "application/json").1
      = Sum.inl { key := computeHash [104], size := 1, isNew := false }
    ∧ MemoryCasStorage.get
        (MemoryCasStorage.putWithKey (MemoryCasStorage.put [] [104] "text/plain").2
          (computeHash [104]) [104] "application/json").2 (computeHash [104])
      = some { content := [104], contentType := "text/plain" }
    ∧ ("text/plain" : String) ≠ "application/json" := by
  refine ⟨by decide, by decide, by decide⟩

/-- C2 (amended): putWithKey of computeKey b with bytes b always succeeds,
reporting the computed key and the byte count; when the key is absent a
subsequent get returns exactly b with the passed content type; when the key
is already present the store is unchanged and get returns the previously
stored blob (idempotent dedup, preserving the original content type); and
for every key k different from computeKey b, putWithKey fails with a
hash-mismatch error carrying expected k and actual computeKey b, leaving
the store unchanged. -/
theorem putWithKey_spec (s : MemoryCasStorage.CasState) (b : List Nat) (ct : String) :
    (MemoryCasStorage.putWithKey s (computeHash b) b ct).1
      = Sum.inl { key := computeHash b, size := b.length,
                  isNew := (lookupA s (computeHash b)).isNone }
    ∧ (lookupA s (computeHash b) = none →
        MemoryCasStorage.get (MemoryCasStorage.putWithKey s (computeHash b) b ct).2
          (computeHash b) = some { content := b, contentType := ct })
    ∧ (∀ blob, lookupA s (computeHash b) = some blob →
        (MemoryCasStorage.putWithKey s (computeHash b) b ct).2 = s
        ∧ MemoryCasStorage.get (MemoryCasStorage.putWithKey s (computeHash b) b ct).2
            (computeHash b) = some blob)
    ∧ (∀ k, k ≠ computeHash b →
        MemoryCasStorage.putWithKey s k b ct
          = (Sum.inr { expected := k, actual := computeHash b }, s)) := by
  refine ⟨?_, ?_, ?_, ?_⟩
  · simp [MemoryCasStorage.putWithKey, MemoryCasStorage.put]
  · intro h
    simp [MemoryCasStorage.putWithKey, MemoryCasStorage.put, MemoryCasStorage.get, h,
      lookupA_insertA_self]
  · intro blob h
    simp [MemoryCasStorage.putWithKey, MemoryCasStorage.put, MemoryCasStorage.get, h]
  · intro k hk
    have h2 : computeHash b ≠ k := fun he => hk he.symm
    simp [MemoryCasStorage.putWithKey, h2]

/-- C2 (witness): the amended statement evaluated at the empty store, the
single byte 104 and the bogus key sha256 colon bogus. -/
theorem putWithKey_spec_witness :
    MemoryCasStorage.get
        (MemoryCasStorage.putWithKey [] (computeHash [104]) [104] "text/plain").2
        (computeHash [104]) = some { content := [104], contentType := "text/plain" }
    ∧ MemoryCasStorage.putWithKey [] "sha256:bogus" [104] "text/plain"
        = (Sum.inr { expected := "sha256:bogus", actual := computeHash [104] }, []) :=
  ⟨(putWithKey_spec [] [104] "text/plain").2.1 rfl,
   (putWithKey_spec [] [104] "text/plain").2.2.2 "sha256:bogus" (by decide)⟩

/-- C3: markTicketWritten on a stored ticket row succeeds and stamps the
written attribute exactly when written is currently unset, and otherwise
returns false without throwing, leaving the whole table, including the
previously stored written value, unchanged. -/
theorem markTicketWritten_spec (table : TokensDb.TicketTable) (id rk : String)
    (t : TicketV2) (h : lookupA table ("token#" ++ id) = some t) :
    (t.written = none →
        TokensDb.markTicketWritten table id rk
          = (true, insertA table ("token#" ++ id) { t with written := some rk })
        ∧ lookupA (TokensDb.markTicketWritten table id rk).2 ("token#" ++ id)
            = some { t with written := some rk })
    ∧ (∀ w, t.written = some w →
        TokensDb.markTicketWritten table id rk = (false, table)) := by
  constructor
  · intro hw
    constructor
    · simp [TokensDb.markTicketWritten, h, hw]
    · simp [TokensDb.markTicketWritten, h, hw, lookupA_insertA_self]
  · intro w hw
    simp [TokensDb.markTicketWritten, h, hw]

/-- C3 (witness): a first markTicketWritten on a fresh ticket succeeds and a
markTicketWritten on an already written ticket fails and leaves the table
unchanged. -/
theorem markTicketWritten_spec_witness :
    TokensDb.markTicketWritten
        [("token#t1", { pk := "token#t1", shard := "sh", issuerId := "i",
                        scope := Sum.inl "usr_a",
                        writable := some WritableConfig.simple,
                        written := none, createdAt := 0, expiresAt := 9,
                        chunkThreshold := 1 })]
        "t1" "sha256:r"
      = (true, [("token#t1", { pk := "token#t1", shard := "sh", issuerId := "i",
                               scope := Sum.inl "usr_a",
                               writable := some WritableConfig.simple,
                               written := some "sha256:r", createdAt := 0,
                               expiresAt := 9, chunkThreshold := 1 })])
    ∧ TokensDb.markTicketWritten
        [("token#t2", { pk := "token#t2", shard := "sh", issuerId := "i",
                        scope := Sum.inl "usr_a",
                        writable := some WritableConfig.simple,
                        written := some "sha256:x", createdAt := 0,
                        expiresAt := 9, chunkThreshold := 1 })]
        "t2" "sha256:r"
      = (false, [("token#t2", { pk := "token#t2", shard := "sh", issuerId := "i",
                                scope := Sum.inl "usr_a",
                                writable := some WritableConfig.simple,
                                written := some "sha256:x", createdAt := 0,
                                expiresAt := 9, chunkThreshold := 1 })]) := by
  constructor
  · have h := (markTicketWritten_spec
        [("token#t1", { pk := "token#t1", shard := "sh", issuerId := "i",
                        scope := Sum.inl "usr_a",
                        writable := some WritableConfig.simple,
                        written := none, createdAt := 0, expiresAt := 9,
                        chunkThreshold := 1 })]
        "t1" "sha256:r"
        { pk := "token#t1", shard := "sh", issuerId := "i",
          scope := Sum.inl "usr_a", writable := some WritableConfig.simple,
          written := none, createdAt := 0, expiresAt := 9, chunkThreshold := 1 }
        (by decide)).1 rfl
    exact h.1.trans (by decide)
  · exact (markTicketWritten_spec
        [("token#t2", { pk := "token#t2", shard := "sh", issuerId := "i",
                        scope := Sum.inl "usr_a",
                        writable := some WritableConfig.simple,
                        written := some "sha256:x", createdAt := 0,
                        expiresAt := 9, chunkThreshold := 1 })]
        "t2" "sha256:r"
        { pk := "token#t2", shard := "sh", issuerId := "i",
          scope := Sum.inl "usr_a", writable := some WritableConfig.simple,
          written := some "sha256:x", createdAt := 0, expiresAt := 9,
          chunkThreshold := 1 }
        (by decide)).2 "sha256:x" rfl

/-- C4 (counterexample): MemoryTokensDb.createTicket trusts the requested
duration: a read ticket requested with a million seconds is stored with a
lifetime of a billion milliseconds, far beyond the one-hour read ceiling
the claim asserts, so the requested duration is not clamped. -/
theorem createTicket_requested_duration_not_clamped :
    (MemoryTokensDb.createTicket "usr_a" "i" "read" none (some 1000000) 0 "t1").expiresAt
        - (MemoryTokensDb.createTicket "usr_a" "i" "read" none (some 1000000) 0 "t1").createdAt
      = 1000000000
    ∧ 3600 * 1000 < 1000000000 := by
  refine ⟨by decide, by decide⟩

/-- C4 (amended): TokensDb.createTicket clamps every requested duration to
the single configured maxTicketTtl ceiling, identical for read and write
tickets; MemoryTokensDb.createTicket applies the type-distinct defaults of
one hour for read and five minutes for write only when no duration is
requested, and uses an explicitly requested duration unclamped. -/
theorem createTicket_ttl_spec :
    (∀ (shard issuerId : String) (scope : Sum String (List String))
        (cfg : CasServerConfig) (writable : Option WritableConfig)
        (expiresIn : Option Nat) (now : Nat) (tid : String),
        (TokensDb.createTicket shard issuerId scope cfg writable expiresIn now tid).expiresAt
            - now ≤ cfg.maxTicketTtl * 1000)
    ∧ (∀ (scope issuerId ttype : String) (key : Option String) (now : Nat) (tid : String),
        (MemoryTokensDb.createTicket scope issuerId ttype key none now tid).expiresAt - now
          = (if ttype = "read" then 3600 else 300) * 1000)
    ∧ (∀ (scope issuerId ttype : String) (key : Option String) (e now : Nat) (tid : String),
        (MemoryTokensDb.createTicket scope issuerId ttype key (some e) now tid).expiresAt - now
          = e * 1000) := by
  refine ⟨?_, ?_, ?_⟩
  · intro _ _ _ cfg _ expiresIn now _
    simp only [TokensDb.createTicket, Nat.add_sub_cancel_left]
    exact Nat.mul_le_mul_right _ (Nat.min_le_right _ _)
  · intro _ _ ttype _ now _
    simp [MemoryTokensDb.createTicket]
  · intro _ _ _ _ e now _
    simp [MemoryTokensDb.createTicket]

/-- C5: checkScopeAccess grants access exactly when the requested scope is
the caller scope or the at-me alias; an addOwnership by one scope never
makes a key visible to a different scope through hasOwnership; and any
request by a context scoped to B against a distinct literal scope A is
denied. -/
theorem scope_isolation_spec :
    (∀ (a : AuthContext) (r : String),
        AuthMiddleware.checkScopeAccess a r = true ↔ (r = a.scope ∨ r = "@me"))
    ∧ (∀ (t : OwnershipDb.OwnTable) (A B casKey cb ct : String) (sz now : Nat),
        A ≠ B → OwnershipDb.hasOwnership t B casKey = false →
        OwnershipDb.hasOwnership (OwnershipDb.addOwnership t A casKey cb ct sz now)
          B casKey = false)
    ∧ (∀ (a : AuthContext) (A : String), a.scope ≠ A → A ≠ "@me" →
        AuthMiddleware.checkScopeAccess a A = false) := by
  refine ⟨?_, ?_, ?_⟩
  · intro a r
    by_cases hr : r = "@me"
    · simp [AuthMiddleware.checkScopeAccess, hr]
    · simp only [AuthMiddleware.checkScopeAccess, hr, if_false, decide_eq_true_eq]
      constructor
      · intro h
        exact Or.inl h.symm
      · intro h
        rcases h with h | h
        · exact h.symm
        · exact h.elim
  · intro t A B casKey cb ct sz now hAB hprev
    have hne : (B, casKey) ≠ (A, casKey) := by
      intro he
      exact hAB (congrArg Prod.fst he).symm
    simpa [OwnershipDb.hasOwnership, OwnershipDb.addOwnership,
      lookupA_insertA_ne _ _ _ _ hne] using hprev
  · intro a A h1 h2
    simp [AuthMiddleware.checkScopeAccess, h2, h1]

/-- C5 (witness): the scope-isolation statement evaluated on a concrete
user context scoped to usr underscore a, the at-me alias, and the two
distinct scopes usr underscore a and usr underscore b. -/
theorem scope_isolation_spec_witness :
    AuthMiddleware.checkScopeAccess
        { token := Token.user { pk := "token#u1", userId := "a", refreshToken := "r",
                                createdAt := 0, expiresAt := 0 },
          userId := "a", scope := "usr_a", canRead := true, canWrite := true,
          canIssueTicket := true, allowedKey := none } "@me" = true
    ∧ OwnershipDb.hasOwnership
        (OwnershipDb.addOwnership [] "usr_a" "sha256:k" "u1" "text/plain" 1 5)
        "usr_b" "sha256:k" = false
    ∧ AuthMiddleware.checkScopeAccess
        { token := Token.user { pk := "token#u1", userId := "a", refreshToken := "r",
                                createdAt := 0, expiresAt := 0 },
          userId := "a", scope := "usr_a", canRead := true, canWrite := true,
          canIssueTicket := true, allowedKey := none } "usr_b" = false :=
  ⟨(scope_isolation_spec.1 _ "@me").mpr (Or.inr rfl),
   scope_isolation_spec.2.1 [] "usr_a" "usr_b" "sha256:k" "u1" "text/plain" 1 5
     (by decide) (by decide),
   scope_isolation_spec.2.2 _ "usr_b" (by decide) (by decide)⟩

/-- C6 (counterexample): checkReadAccess accepts a context whose allowedKey
is set to the empty string for an unrelated key, because the source tests
the restriction with JavaScript truthiness and the empty string is falsy;
so the claimed equivalence with allowedKey unset or equal to the key is
false. -/
theorem checkReadAccess_empty_allowedKey :
    AuthMiddleware.checkReadAccess
        { token := Token.user { pk := "token#u1", userId := "a", refreshToken := "r",
                                createdAt := 0, expiresAt := 0 },
          userId := "a", scope := "usr_a", canRead := true, canWrite := false,
          canIssueTicket := false, allowedKey := some "" } "sha256:k" = true
    ∧ (some "" : Option String) ≠ none
    ∧ (some "" : Option String) ≠ some "sha256:k" := by
  refine ⟨by decide, by decide, by decide⟩

/-- C6 (amended): checkReadAccess returns true exactly when canRead holds
and the allowedKey restriction is unset, the empty string, or equal to the
requested key; consequently a read ticket minted with a nonempty key K1
yields a context that passes checkReadAccess for K1 and fails for every
other key. -/
theorem checkReadAccess_spec :
    (∀ (a : AuthContext) (key : String),
        AuthMiddleware.checkReadAccess a key = true
          ↔ (a.canRead = true ∧
              (a.allowedKey = none ∨ a.allowedKey = some "" ∨ a.allowedKey = some key)))
    ∧ (∀ (t : Ticket) (K1 : String), t.ticketType = "read" → t.key = some K1 → K1 ≠ "" →
        ∃ c, AuthMiddleware.buildAuthContext (Token.ticket t) = some c
          ∧ AuthMiddleware.checkReadAccess c K1 = true
          ∧ ∀ K2, K2 ≠ K1 → AuthMiddleware.checkReadAccess c K2 = false) := by
  constructor
  · intro a key
    rcases ha : a.allowedKey with _ | s
    · simp [AuthMiddleware.checkReadAccess, AuthMiddleware.jsTruthy, ha]
    · by_cases hs : s = ""
      · simp [AuthMiddleware.checkReadAccess, AuthMiddleware.jsTruthy, ha, hs]
      · by_cases hk : s = key
        · simp [AuthMiddleware.checkReadAccess, AuthMiddleware.jsTruthy, ha, hs, hk]
        · simp [AuthMiddleware.checkReadAccess, AuthMiddleware.jsTruthy, ha, hs, hk]
  · intro t K1 htype hkey hne
    refine ⟨_, rfl, ?_, ?_⟩
    · simp [AuthMiddleware.checkReadAccess, AuthMiddleware.jsTruthy,
        AuthMiddleware.buildAuthContext, htype, hkey, hne]
    · intro K2 hK2
      have h2 : ¬ K1 = K2 := fun he => hK2 he.symm
      simp [AuthMiddleware.checkReadAccess, AuthMiddleware.jsTruthy,
        AuthMiddleware.buildAuthContext, htype, hkey, hne, h2]

/-- C6 (witness): the amended statement evaluated on a concrete read ticket
whose key restriction is the nonempty key sha256 colon k. -/
theorem checkReadAccess_spec_witness :
    ∃ c, AuthMiddleware.buildAuthContext
          (Token.ticket { pk := "token#t1", scope := "usr_a", issuerId := "i",
                          ticketType := "read", key := some "sha256:k",
                          written := none, createdAt := 0, expiresAt := 0 }) = some c
      ∧ AuthMiddleware.checkReadAccess c "sha256:k" = true
      ∧ ∀ K2, K2 ≠ "sha256:k" → AuthMiddleware.checkReadAccess c K2 = false :=
  checkReadAccess_spec.2
    { pk := "token#t1", scope := "usr_a", issuerId := "i", ticketType := "read",
      key := some "sha256:k", written := none, createdAt := 0, expiresAt := 0 }
    "sha256:k" rfl rfl (by decide)

/-- C7: TokensDb.createAgentToken in db/tokens.ts accepts no permissions
argument and the row it stores carries no permissions attribute, so the
middleware, whose agent branch dereferences the stored permissions, cannot
build the claimed context from such a token: buildAuthContext fails instead
of yielding a context with the requested rights. -/
theorem createAgentToken_drops_permissions :
    (∀ (userId name : String) (cfg : CasServerConfig) (d : Option String)
        (e : Option Nat) (now : Nat) (tid : String),
        (TokensDb.createAgentToken userId name cfg d e now tid).permissions = none)
    ∧ AuthMiddleware.buildAuthContext
        (Token.agent (TokensDb.createAgentToken "u1" "agent"
          { maxTicketTtl := 3600, maxAgentTokenTtl := 2592000, chunkThreshold := 1048576 }
          none none 0 "a1")) = none :=
  ⟨fun _ _ _ _ _ _ _ => rfl, rfl⟩

set_option maxRecDepth 100000 in
/-- C8 (counterexample): two successful puts of the same single byte by the
same scope through handlePutNode at times 1000 and 2000: after the second
put the ownership record of the pair carries createdAt 2000, so the repeat
did not leave the original createdAt of 1000 unchanged. -/
theorem repeated_put_overwrites_ownership :
    lookupA (Router.handlePutNode { tokens := [], ownership := [], blobs := [] }
        { token := Token.user { pk := "token#u1", userId := "a", refreshToken := "r",
                                createdAt := 0, expiresAt := 0 },
          userId := "a", scope := "usr_a", canRead := true, canWrite := true,
          canIssueTicket := true, allowedKey := none }
        "usr_a" (computeHash [7]) [7] "text/plain" 1000).2.ownership
        ("usr_a", computeHash [7])
      = some { scope := "usr_a", key := computeHash [7], createdAt := 1000,
               createdBy := "u1", contentType := "text/plain", size := 1 }
    ∧ (Router.handlePutNode
        (Router.handlePutNode { tokens := [], ownership := [], blobs := [] }
          { token := Token.user { pk := "token#u1", userId := "a", refreshToken := "r",
                                  createdAt := 0, expiresAt := 0 },
            userId := "a", scope := "usr_a", canRead := true, canWrite := true,
            canIssueTicket := true, allowedKey := none }
          "usr_a" (computeHash [7]) [7] "text/plain" 1000).2
        { token := Token.user { pk := "token#u1", userId := "a", refreshToken := "r",
                                createdAt := 0, expiresAt := 0 },
          userId := "a", scope := "usr_a", canRead := true, canWrite := true,
          canIssueTicket := true, allowedKey := none }
        "usr_a" (computeHash [7]) [7] "text/plain" 2000).1
      = PutNodeResp.ok (computeHash [7]) 1 "text/plain"
    ∧ lookupA (Router.handlePutNode
        (Router.handlePutNode { tokens := [], ownership := [], blobs := [] }
          { token := Token.user { pk := "token#u1", userId := "a", refreshToken := "r",
                                  createdAt := 0, expiresAt := 0 },
            userId := "a", scope := "usr_a", canRead := true, canWrite := true,
            canIssueTicket := true, allowedKey := none }
          "usr_a" (computeHash [7]) [7] "text/plain" 1000).2
        { token := Token.user { pk := "token#u1", userId := "a", refreshToken := "r",
                                createdAt := 0, expiresAt := 0 },
          userId := "a", scope := "usr_a", canRead := true, canWrite := true,
          canIssueTicket := true, allowedKey := none }
        "usr_a" (computeHash [7]) [7] "text/plain" 2000).2.ownership
        ("usr_a", computeHash [7])
      = some { scope := "usr_a", key := computeHash [7], createdAt := 2000,
               createdBy := "u1", contentType := "text/plain", size := 1 }
    ∧ (2000 : Nat) ≠ 1000 := by
  refine ⟨by decide, by decide, by decide, by decide⟩

/-- C8 (amended): addOwnership writes a record stamped with the current
time and writing token for its scope and key pair, overwriting any earlier
record under that pair, and leaves every other pair untouched; a repeated
successful put therefore replaces the createdAt and createdBy fields of
the record rather than preserving the original ones. -/
theorem addOwnership_overwrite_spec (t : OwnershipDb.OwnTable)
    (scope casKey cb ct : String) (sz now : Nat) :
    lookupA (OwnershipDb.addOwnership t scope casKey cb ct sz now) (scope, casKey)
      = some { scope := scope, key := casKey, createdAt := now, createdBy := cb,
               contentType := ct, size := sz }
    ∧ ∀ p, p ≠ (scope, casKey) →
        lookupA (OwnershipDb.addOwnership t scope casKey cb ct sz now) p
          = lookupA t p :=
  ⟨lookupA_insertA_self _ _ _,
   fun _ hp => lookupA_insertA_ne _ _ _ _ hp⟩

/-- C8 (witness): the overwrite statement evaluated at a concrete table
already holding a record for the pair and at a distinct untouched pair. -/
theorem addOwnership_overwrite_spec_witness :
    lookupA (OwnershipDb.addOwnership
        [(("usr_a", "sha256:k"),
          { scope := "usr_a", key := "sha256:k", createdAt := 1, createdBy := "u0",
            contentType := "text/plain", size := 1 })]
        "usr_a" "sha256:k" "u1" "text/plain" 1 2) ("usr_a", "sha256:k")
      = some { scope := "usr_a", key := "sha256:k", createdAt := 2, createdBy := "u1",
               contentType := "text/plain", size := 1 }
    ∧ lookupA (OwnershipDb.addOwnership
        [(("usr_a", "sha256:k"),
          { scope := "usr_a", key := "sha256:k", createdAt := 1, createdBy := "u0",
            contentType := "text/plain", size := 1 })]
        "usr_a" "sha256:k" "u1" "text/plain" 1 2) ("usr_b", "sha256:k")
      = lookupA
        [(("usr_a", "sha256:k"),
          { scope := "usr_a", key := "sha256:k", createdAt := 1, createdBy := "u0",
            contentType := "text/plain", size := 1 })] ("usr_b", "sha256:k") :=
  ⟨(addOwnership_overwrite_spec _ "usr_a" "sha256:k" "u1" "text/plain" 1 2).1,
   (addOwnership_overwrite_spec
      [(("usr_a", "sha256:k"),
        { scope := "usr_a", key := "sha256:k", createdAt := 1, createdBy := "u0",
          contentType := "text/plain", size := 1 })]
      "usr_a" "sha256:k" "u1" "text/plain" 1 2).2 ("usr_b", "sha256:k") (by decide)⟩

/-- C10: an empty PUT node body leaves the whole backend state unchanged,
so the empty byte sequence is never hashed, stored or claimed; when the
caller has write access the handler answers with the empty-body response,
whose status is 400 and whose message is Empty body. -/
theorem handlePutNode_empty_body (st : RouterState) (auth : AuthContext)
    (scope key ct : String) (content : List Nat) (now : Nat)
    (h : content.length = 0) :
    (Router.handlePutNode st auth scope key content ct now).2 = st
    ∧ (AuthMiddleware.checkWriteAccess auth = true →
        (Router.handlePutNode st auth scope key content ct now).1
          = PutNodeResp.emptyBody)
    ∧ PutNodeResp.emptyBody.status = 400
    ∧ PutNodeResp.emptyBody.errorMessage = some "Empty body" := by
  refine ⟨?_, ?_, rfl, rfl⟩
  · cases hw : AuthMiddleware.checkWriteAccess auth <;>
      simp [Router.handlePutNode, hw, h]
  · intro hw
    simp [Router.handlePutNode, hw, h]

/-- C10 (witness): the empty-body statement evaluated on a concrete state
and a concrete user context with write access. -/
theorem handlePutNode_empty_body_witness :
    (Router.handlePutNode { tokens := [], ownership := [], blobs := [] }
        { token := Token.user { pk := "token#u1", userId := "a", refreshToken := "r",
                                createdAt := 0, expiresAt := 0 },
          userId := "a", scope := "usr_a", canRead := true, canWrite := true,
          canIssueTicket := true, allowedKey := none }
        "usr_a" "sha256:k" [] "text/plain" 7).2
      = { tokens := [], ownership := [], blobs := [] }
    ∧ (Router.handlePutNode { tokens := [], ownership := [], blobs := [] }
        { token := Token.user { pk := "token#u1", userId := "a", refreshToken := "r",
                                createdAt := 0, expiresAt := 0 },
          userId := "a", scope := "usr_a", canRead := true, canWrite := true,
          canIssueTicket := true, allowedKey := none }
        "usr_a" "sha256:k" [] "text/plain" 7).1 = PutNodeResp.emptyBody :=
  ⟨(handlePutNode_empty_body _ _ "usr_a" "sha256:k" "text/plain" [] 7 rfl).1,
   (handlePutNode_empty_body _ _ "usr_a" "sha256:k" "text/plain" [] 7 rfl).2.1 rfl⟩

set_option maxRecDepth 200000 in
/-- C1: the PUT node route never touches the tokens table, and a concrete
writable ticket authorizes two successive uploads of distinct contents:
both return the ok response with status 200, and the written slot of the
ticket row is still unset after each request, so a second upload using the
same ticket is not rejected as AlreadyWritten. -/
theorem write_ticket_reuse_not_rejected :
    (∀ (st : RouterState) (now : Nat) (h : Option String) (rs k : String)
        (c : List Nat) (ct : String),
        (Router.casPutNode st now h rs k c ct).2.tokens = st.tokens)
    ∧ (Router.casPutNode
        { tokens := [("token#tkt1",
            Token.ticket { pk := "token#tkt1", scope := "usr_u1", issuerId := "u1",
                           ticketType := "write", key := none, written := none,
                           createdAt := 0, expiresAt := 2000000 })],
          ownership := [], blobs := [] }
        1000 (some "Ticket tkt1") "@me" (computeHash [1]) [1]
        "application/octet-stream").1
      = PutNodeResp.ok (computeHash [1]) 1 "application/octet-stream"
    ∧ (PutNodeResp.ok (computeHash [1]) 1 "application/octet-stream").status = 200
    ∧ (Router.casPutNode
        { tokens := [("token#tkt1",
            Token.ticket { pk := "token#tkt1", scope := "usr_u1", issuerId := "u1",
                           ticketType := "write", key := none, written := none,
                           createdAt := 0, expiresAt := 2000000 })],
          ownership := [], blobs := [] }
        1000 (some "Ticket tkt1") "@me" (computeHash [1]) [1]
        "application/octet-stream").2.tokens
      = [("token#tkt1",
          Token.ticket { pk := "token#tkt1", scope := "usr_u1", issuerId := "u1",
                         ticketType := "write", key := none, written := none,
                         createdAt := 0, expiresAt := 2000000 })]
    ∧ (Router.casPutNode
        (Router.casPutNode
          { tokens := [("token#tkt1",
              Token.ticket { pk := "token#tkt1", scope := "usr_u1", issuerId := "u1",
                             ticketType := "write", key := none, written := none,
                             createdAt := 0, expiresAt := 2000000 })],
            ownership := [], blobs := [] }
          1000 (some "Ticket tkt1") "@me" (computeHash [1]) [1]
          "application/octet-stream").2
        1001 (some "Ticket tkt1") "@me" (computeHash [2]) [2]
        "application/octet-stream").1
      = PutNodeResp.ok (computeHash [2]) 1 "application/octet-stream" := by
  refine ⟨?_, by decide, rfl, by decide, by decide⟩
  intro st now h rs k c ct
  simp only [Router.casPutNode]
  cases AuthMiddleware.authenticate st.tokens now h with
  | none => rfl
  | some auth =>
      simp only []
      by_cases hs : AuthMiddleware.checkScopeAccess auth rs
      · simp only [hs, Bool.not_true, if_false, Router.handlePutNode]
        by_cases hw : AuthMiddleware.checkWriteAccess auth
        · simp only [hw, Bool.not_true, if_false]
          by_cases hc : c.length = 0
          · simp [hc]
          · simp only [hc, if_false]
            rcases hp : MemoryCasStorage.putWithKey st.blobs k c ct with ⟨r | e, blobs'⟩
            · simp
            · simp
        · simp [hw]
      · simp [hs]

/-- Unfolding equation of the traversal loop on an empty queue. -/
theorem collectAux_nil (nodes : MemoryDagDb.NodeTable) (visited : List String) :
    MemoryDagDb.collectAux nodes [] visited = visited := by
  simp [MemoryDagDb.collectAux]

/-- Unfolding equation of the traversal loop on an already visited key. -/
theorem collectAux_cons_mem (nodes : MemoryDagDb.NodeTable) (key : String)
    (rest visited : List String) (h : key ∈ visited) :
    MemoryDagDb.collectAux nodes (key :: rest) visited
      = MemoryDagDb.collectAux nodes rest visited := by
  rw [MemoryDagDb.collectAux]
  simp [h]

/-- Unfolding equation of the traversal loop on a fresh key. -/
theorem collectAux_cons_notmem (nodes : MemoryDagDb.NodeTable) (key : String)
    (rest visited : List String) (h : ¬ key ∈ visited) :
    MemoryDagDb.collectAux nodes (key :: rest) visited
      = MemoryDagDb.collectAux nodes
          (rest ++ (MemoryDagDb.childrenOf nodes key).filter
            (fun c => decide (¬ c ∈ visited ++ [key])))
          (visited ++ [key]) := by
  rw [MemoryDagDb.collectAux]
  simp [h]

/-- Invariant-carrying correctness of the traversal loop: starting from a
deduplicated visited list of reachable keys, a queue of reachable keys, a
closure property linking visited keys to the queue, and the root being
either visited or queued, the loop returns a deduplicated list holding
exactly the reachable keys. -/
theorem collectAux_reachable (nodes : MemoryDagDb.NodeTable) (root : String) :
    ∀ (queue visited : List String),
      visited.Nodup →
      (∀ k ∈ visited, MemoryDagDb.DagReach nodes root k) →
      (∀ k ∈ queue, MemoryDagDb.DagReach nodes root k) →
      (∀ v ∈ visited, ∀ c, MemoryDagDb.DagEdge nodes v c → c ∈ visited ∨ c ∈ queue) →
      (root ∈ visited ∨ root ∈ queue) →
      (MemoryDagDb.collectAux nodes queue visited).Nodup ∧
        ∀ k, (k ∈ MemoryDagDb.collectAux nodes queue visited
                ↔ MemoryDagDb.DagReach nodes root k) := by
  intro queue visited
  induction queue, visited using MemoryDagDb.collectAux.induct nodes with
  | case1 visited =>
      intro h1 h2 _ h4 h5
      rw [collectAux_nil]
      refine ⟨h1, fun k => ⟨fun hk => h2 k hk, fun hr => ?_⟩⟩
      have hroot : root ∈ visited := by
        rcases h5 with h | h
        · exact h
        · simp at h
      induction hr with
      | refl => exact hroot
      | tail _ hedge ih =>
          rcases h4 _ ih _ hedge with h | h
          · exact h
          · simp at h
  | case2 key rest visited hmem ih =>
      intro h1 h2 h3 h4 h5
      rw [collectAux_cons_mem _ _ _ _ hmem]
      refine ih h1 h2 (fun k hk => h3 k (List.mem_cons_of_mem _ hk)) ?_ ?_
      · intro v hv c hc
        rcases h4 v hv c hc with h | h
        · exact Or.inl h
        · rcases List.mem_cons.mp h with he | he
          · exact Or.inl (he ▸ hmem)
          · exact Or.inr he
      · rcases h5 with h | h
        · exact Or.inl h
        · rcases List.mem_cons.mp h with he | he
          · exact Or.inl (he ▸ hmem)
          · exact Or.inr he
  | case3 key rest visited hmem ih =>
      intro h1 h2 h3 h4 h5
      rw [collectAux_cons_notmem _ _ _ _ hmem]
      have hreachkey : MemoryDagDb.DagReach nodes root key :=
        h3 key (List.mem_cons_self _ _)
      refine ih ?_ ?_ ?_ ?_ ?_
      · simp [List.nodup_append, h1, hmem]
      · intro k hk
        rcases List.mem_append.mp hk with h | h
        · exact h2 k h
        · have he : k = key := by simpa using h
          exact he ▸ hreachkey
      · intro k hk
        rcases List.mem_append.mp hk with h | h
        · exact h3 k (List.mem_cons_of_mem _ h)
        · have hf := List.mem_filter.mp h
          have hkc : k ∈ MemoryDagDb.childrenOf nodes key := hf.1
          have hedge : MemoryDagDb.DagEdge nodes key k := by
            unfold MemoryDagDb.childrenOf at hkc
            rcases hl : lookupA nodes key with _ | n
            · rw [hl] at hkc
              simp at hkc
            · rw [hl] at hkc
              exact ⟨n, hl, hkc⟩
          exact Relation.ReflTransGen.tail hreachkey hedge
      · intro v hv c hc
        rcases List.mem_append.mp hv with h | h
        · rcases h4 v h c hc with h' | h'
          · exact Or.inl (List.mem_append.mpr (Or.inl h'))
          · rcases List.mem_cons.mp h' with he | he
            · exact Or.inl (List.mem_append.mpr (Or.inr (by simp [he])))
            · exact Or.inr (List.mem_append.mpr (Or.inl he))
        · have hvk : v = key := by simpa using h
          subst hvk
          have hc' : ∃ n, lookupA nodes v = some n ∧ c ∈ n.children := hc
          obtain ⟨n, hl, hcn⟩ := hc'
          have hkc : c ∈ MemoryDagDb.childrenOf nodes v := by
            unfold MemoryDagDb.childrenOf
            rw [hl]
            exact hcn
          by_cases hcv : c ∈ visited ++ [v]
          · exact Or.inl hcv
          · refine Or.inr (List.mem_append.mpr (Or.inr ?_))
            exact List.mem_filter.mpr ⟨hkc, by simpa using hcv⟩
      · rcases h5 with h | h
        · exact Or.inl (List.mem_append.mpr (Or.inl h))
        · rcases List.mem_cons.mp h with he | he
          · exact Or.inl (List.mem_append.mpr (Or.inr (by simp [he])))
          · exact Or.inr (List.mem_append.mpr (Or.inl he))

/-- C9: for every finite node table, including malformed tables with
self-references or reference cycles, collectDagKeys terminates (it is a
total function of the table) and returns a list without duplicates holding
exactly the keys reachable from the root by following children edges. -/
theorem collectDagKeys_reachability (nodes : MemoryDagDb.NodeTable) (root : String) :
    (MemoryDagDb.collectDagKeys nodes root).Nodup ∧
      ∀ k, (k ∈ MemoryDagDb.collectDagKeys nodes root
              ↔ MemoryDagDb.DagReach nodes root k) := by
  have h := collectAux_reachable nodes root [root] [] (by simp) (by simp)
    (fun k hk => by
      have he : k = root := by simpa using hk
      exact he ▸ Relation.ReflTransGen.refl)
    (by simp) (by simp)
  exact h
